import Mathlib

/-!
Verification of the per-request dispatch engine in context.go of the tango
HTTP middleware/routing package.

The shallow embedding translates the Context type and its methods (reset,
newAction, Route, Params, Action, Next, invoke, execute, Abort, NotFound,
HandleError, Body) into Lean. Stateful methods are state transformers over
an explicit Context record. The mutually recursive chain driver
(Next / invoke / execute plus the middleware bodies they run) is given
fuel-based semantics (stepCall); running out of fuel is reported as
Outcome.fuelOut, and a Go panic as Outcome.panicked.

Middleware handlers and context-consuming actions are arbitrary client
code; they are deep-embedded as a small command language (HandlerProg)
covering the operations the Context API offers them: advancing the chain
(Next), aborting, writing to the response, triggering resolution via the
accessors, sequencing, and doing nothing.

Observable interactions with external collaborators (the route matcher,
middleware invocations, the call of the raw action with its argument list,
the error handler) are recorded in an event trace appended to the state,
so that claims about call order, call counts and "happens before" are
statements about the trace.
-/

/-- Raw bytes of a request body reader; err models a failing reader. -/
structure BodyReader where
  remaining : List Nat
  err : Option String
deriving DecidableEq, Inhabited

/-- The parts of *http.Request the dispatch core reads. -/
structure Request where
  path : String
  method : String
  body : BodyReader
deriving DecidableEq, Inhabited

/-- External response writer: a written flag (the Written predicate) and
the bytes written so far. -/
structure ResponseWriter where
  written : Bool
  out : String
deriving DecidableEq, Inhabited

/-- Values crossing the interface boundary (Go interface values):
returned by actions, stored in Context.Result. vStatusResult models the
StatusResult struct; vAbort models the value built by the external
Abort(status, body) constructor (modelled from the spec: the Abort result
variant carries statusCode and message, its constructor lives outside
context.go). -/
inductive GoValue where
  | vInt (n : Int)
  | vStr (s : String)
  | vStatusResult (code : Int) (payload : GoValue)
  | vAbort (status : Int) (body : String)
  | vNil
deriving DecidableEq, Inhabited

/-- The routeType tag of a route. The seven named constructors are the
supported kinds from context.go; other n stands for any other value of
the underlying integer tag. -/
inductive RouteType where
  | structPtrRoute
  | structRoute
  | funcRoute
  | funcHttpRoute
  | funcReqRoute
  | funcResponseRoute
  | funcCtxRoute
  | other (n : Nat)
deriving DecidableEq, Inhabited

/-- One precomputed call argument (a reflect.Value in the source):
argElem is the action value obtained by dereferencing the fresh instance
(StructPtrRoute), argVal the instance itself (StructRoute); argResp,
argReq and argCtx are the response writer, the request and the context. -/
inductive CallArg where
  | argElem (v : Nat)
  | argVal (v : Nat)
  | argResp
  | argReq
  | argCtx
deriving DecidableEq, Inhabited

/-- Positional tag of an argument passed to a directly-invoked raw
handler, in the order the arguments are passed. -/
inductive ArgTag where
  | areq
  | aresp
  | actx
deriving DecidableEq, Inhabited

/-- Deep-embedded middleware / context-consuming handler bodies: the
Context operations client code can perform. -/
inductive HandlerProg where
  | hskip
  | hnext
  | habort (status : Int) (body : String)
  | hwrite (s : String)
  | hresolve
  | hseq (a b : HandlerProg)
deriving DecidableEq, Inhabited

/-- The dynamic shape of route.raw as discriminated by the type switch in
execute: the five directly-invoked shapes, or anything else (methodRaw),
which is invoked reflectively via route.method.Call. funcReqResp is the
shape func(*http.Request, http.ResponseWriter); its optional payload is
what it writes to the response, as is funcResp's. funcCtx carries the
body run with the context. -/
inductive RawHandler where
  | funcCtx (p : HandlerProg)
  | funcReqResp (w : Option String)
  | funcNone
  | funcReq
  | funcResp (w : Option String)
  | methodRaw
deriving DecidableEq, Inhabited

/-- External route object, consumed read-only: kind tag, route-local
middleware, raw callable shape, the return values produced by the
reflective method call, and the identity of the fresh action instance
route.newAction() builds. -/
structure Route where
  routeType : RouteType
  handlers : List HandlerProg
  raw : RawHandler
  method : List GoValue
  actionId : Nat
deriving DecidableEq, Inhabited

/-- Observable events, appended in chronological order:
matchAttempt — the external matcher was consulted;
handlerRun s i — middleware link i of stage s was invoked;
stageTransition oldIdx — execute switched stage 0 to stage 1, resetting
idx from oldIdx to 0;
rawCall args — a directly-invoked raw handler was called with the listed
arguments in the listed order;
methodCall args — route.method.Call was performed with the listed
arguments; errHandler — tan.ErrHandler.Handle(ctx) was invoked. -/
inductive Event where
  | matchAttempt (path method : String)
  | handlerRun (stage : Nat) (idx : Nat)
  | stageTransition (oldIdx : Nat)
  | rawCall (args : List ArgTag)
  | methodCall (args : List CallArg)
  | errHandler
deriving DecidableEq, Inhabited

/-- The Context struct of context.go, plus the instrumentation trace.
tanRef and logger stand for the embedded owning-dispatcher pointer and
Logger, which the core never rebinds. -/
structure Context where
  tanRef : Nat
  logger : Nat
  idx : Nat
  stage : Nat
  req : Request
  resp : ResponseWriter
  route : Option Route
  params : List (String × String)
  callArgs : List CallArg
  matched : Bool
  action : Option Nat
  Result : Option GoValue
  trace : List Event
deriving DecidableEq, Inhabited

/-- The immutable per-dispatcher data the core reads: the global
middleware list and the external route matcher. -/
structure Tango where
  handlers : List HandlerProg
  matchRoute : String → String → Option Route × List (String × String)

/-- Result of running a fueled computation: normal completion, a Go
panic, or fuel exhaustion (no verdict). -/
inductive Outcome where
  | ok (ctx : Context)
  | panicked (msg : String)
  | fuelOut
deriving DecidableEq, Inhabited

/-- Append one observable event to the trace. -/
def pushEvent (e : Event) (ctx : Context) : Context :=
  { ctx with trace := ctx.trace ++ [e] }

/-- Modelled from the spec: removeStick lives outside context.go; the
spec says path normalization collapses the trailing-slash convention
before matching. -/
def removeStick (uri : String) : String :=
  let u := String.mk ((uri.toList.reverse.dropWhile (fun c => c = '/')).reverse)
  if u = "" then "/" else u

/-- Modelled from the Go standard library: http.StatusText for the codes
this core uses. -/
def statusText (code : Int) : String :=
  if code = 404 then "Not Found"
  else if code = 401 then "Unauthorized"
  else ""

/-- Context.reset: install the new request and response writer and zero
the cursor, the resolution cache and the outcome. -/
def Context.reset (ctx : Context) (req : Request) (resp : ResponseWriter) : Context :=
  { ctx with
      req := req
      resp := resp
      idx := 0
      stage := 0
      route := none
      params := []
      callArgs := []
      matched := false
      action := none
      Result := none }

/-- Context.HandleError: call the external error handler with the
context. Modelled from the spec: the error handler is an external
collaborator; its invocation is the observable event. -/
def Context.HandleError (ctx : Context) : Context :=
  pushEvent Event.errHandler ctx

/-- Context.Abort: set Result to the Abort value and invoke the error
handler. -/
def Context.Abort (ctx : Context) (status : Int) (body : String) : Context :=
  Context.HandleError { ctx with Result := some (GoValue.vAbort status body) }

/-- Context.NotFound: abort with 404 and the default text, or the first
custom message. -/
def Context.NotFound (ctx : Context) (message : List String) : Context :=
  match message with
  | [] => Context.Abort ctx 404 (statusText 404)
  | m :: _ => Context.Abort ctx 404 m

/-- A middleware writing to the response: sets the written flag. -/
def writeResp (s : String) (ctx : Context) : Context :=
  { ctx with resp := { written := true, out := ctx.resp.out ++ s } }

/-- The callArgs built by newAction for each supported routeType; none
for an unsupported tag (the panic case). -/
def callArgsFor (t : RouteType) (vc : Nat) : Option (List CallArg) :=
  match t with
  | RouteType.structPtrRoute => some [CallArg.argElem vc]
  | RouteType.structRoute => some [CallArg.argVal vc]
  | RouteType.funcRoute => some []
  | RouteType.funcHttpRoute => some [CallArg.argResp, CallArg.argReq]
  | RouteType.funcReqRoute => some [CallArg.argReq]
  | RouteType.funcResponseRoute => some [CallArg.argResp]
  | RouteType.funcCtxRoute => some [CallArg.argCtx]
  | RouteType.other _ => none

/-- Context.newAction: lazy, memoized resolution. On the first call
(matched still false) it normalizes the path, consults the matcher, and
on a match constructs the action instance and the call arguments,
panicking on an unsupported routeType; matched is set in every non-panic
path. Subsequent calls are a no-op. -/
def Context.newAction (tan : Tango) (ctx : Context) : Except String Context :=
  if ctx.matched then Except.ok ctx
  else
    match tan.matchRoute (removeStick ctx.req.path) ctx.req.method with
    | (none, ps) =>
      Except.ok { ctx with
        route := none, params := ps, matched := true,
        trace := ctx.trace ++
          [Event.matchAttempt (removeStick ctx.req.path) ctx.req.method] }
    | (some r, ps) =>
      match callArgsFor r.routeType r.actionId with
      | none => Except.error "routeType error"
      | some args =>
        Except.ok { ctx with
          route := some r, params := ps, action := some r.actionId,
          callArgs := args, matched := true,
          trace := ctx.trace ++
            [Event.matchAttempt (removeStick ctx.req.path) ctx.req.method] }

/-- Context.Route: resolve, then return the cached route. -/
def RouteAcc (tan : Tango) (ctx : Context) : Except String (Option Route × Context) :=
  match Context.newAction tan ctx with
  | Except.error m => Except.error m
  | Except.ok c => Except.ok (c.route, c)

/-- Context.Params: resolve, then return the cached params. -/
def ParamsAcc (tan : Tango) (ctx : Context) :
    Except String (List (String × String) × Context) :=
  match Context.newAction tan ctx with
  | Except.error m => Except.error m
  | Except.ok c => Except.ok (c.params, c)

/-- Context.Action: resolve, then return the cached action instance. -/
def ActionAcc (tan : Tango) (ctx : Context) : Except String (Option Nat × Context) :=
  match Context.newAction tan ctx with
  | Except.error m => Except.error m
  | Except.ok c => Except.ok (c.action, c)

/-- The capture of reflective return values after the type switch in
execute: one return value becomes Result; two with an integer first
become a StatusResult; any other shape leaves Result untouched. -/
def capture (ret : List GoValue) (ctx : Context) : Context :=
  match ret with
  | [v] => { ctx with Result := some v }
  | [v1, v2] =>
    match v1 with
    | GoValue.vInt code => { ctx with Result := some (GoValue.vStatusResult code v2) }
    | _ => ctx
  | _ => ctx

/-- Apply the optional write a directly-invoked raw handler performs. -/
def applyWrite (w : Option String) (ctx : Context) : Context :=
  match w with
  | none => ctx
  | some s => writeResp s ctx

/-- Selector for the fueled mutually recursive entry points. -/
inductive Call where
  | cprog (p : HandlerProg)
  | cnext
  | cinvoke
  | cexec
deriving DecidableEq, Inhabited

/-- Fueled semantics of the chain driver: Next, invoke, execute, and the
running of deep-embedded handler bodies, mirroring context.go line by
line. Each recursive call consumes one unit of fuel. -/
def stepCall : Nat → Tango → Call → Context → Outcome
  | 0, _, _, _ => Outcome.fuelOut
  | f + 1, tan, c, ctx =>
    match c with
    | Call.cprog p =>
      match p with
      | HandlerProg.hskip => Outcome.ok ctx
      | HandlerProg.hnext => stepCall f tan Call.cnext ctx
      | HandlerProg.habort s b => Outcome.ok (Context.Abort ctx s b)
      | HandlerProg.hwrite s => Outcome.ok (writeResp s ctx)
      | HandlerProg.hresolve =>
        match Context.newAction tan ctx with
        | Except.error m => Outcome.panicked m
        | Except.ok c1 => Outcome.ok c1
      | HandlerProg.hseq a b =>
        match stepCall f tan (Call.cprog a) ctx with
        | Outcome.ok c1 => stepCall f tan (Call.cprog b) c1
        | r => r
    | Call.cnext => stepCall f tan Call.cinvoke { ctx with idx := ctx.idx + 1 }
    | Call.cinvoke =>
      if ctx.stage = 0 then
        if h : ctx.idx < tan.handlers.length then
          stepCall f tan (Call.cprog (tan.handlers.get ⟨ctx.idx, h⟩))
            (pushEvent (Event.handlerRun 0 ctx.idx) ctx)
        else stepCall f tan Call.cexec ctx
      else if ctx.stage = 1 then
        match ctx.route with
        | none => Outcome.panicked "nil pointer dereference"
        | some r =>
          if h : ctx.idx < r.handlers.length then
            stepCall f tan (Call.cprog (r.handlers.get ⟨ctx.idx, h⟩))
              (pushEvent (Event.handlerRun 1 ctx.idx) ctx)
          else stepCall f tan Call.cexec ctx
      else Outcome.ok ctx
    | Call.cexec =>
      match Context.newAction tan ctx with
      | Except.error m => Outcome.panicked m
      | Except.ok c1 =>
        match c1.action with
        | none =>
          if c1.resp.written then Outcome.ok c1
          else Outcome.ok (Context.NotFound c1 [])
        | some _ =>
          match c1.route with
          | none => Outcome.panicked "nil pointer dereference"
          | some r =>
            if 0 < r.handlers.length ∧ c1.stage = 0 then
              stepCall f tan Call.cinvoke
                (pushEvent (Event.stageTransition c1.idx)
                  { c1 with idx := 0, stage := 1 })
            else
              match r.raw with
              | RawHandler.funcCtx p =>
                match stepCall f tan (Call.cprog p)
                    (pushEvent (Event.rawCall [ArgTag.actx]) c1) with
                | Outcome.ok c2 => Outcome.ok (capture [] c2)
                | r2 => r2
              | RawHandler.funcReqResp w =>
                Outcome.ok (capture []
                  (applyWrite w (pushEvent (Event.rawCall [ArgTag.areq, ArgTag.aresp]) c1)))
              | RawHandler.funcNone =>
                Outcome.ok (capture [] (pushEvent (Event.rawCall []) c1))
              | RawHandler.funcReq =>
                Outcome.ok (capture [] (pushEvent (Event.rawCall [ArgTag.areq]) c1))
              | RawHandler.funcResp w =>
                Outcome.ok (capture []
                  (applyWrite w (pushEvent (Event.rawCall [ArgTag.aresp]) c1)))
              | RawHandler.methodRaw =>
                Outcome.ok (capture r.method
                  (pushEvent (Event.methodCall c1.callArgs) c1))

/-- Running a deep-embedded handler body. -/
def runProg (f : Nat) (tan : Tango) (p : HandlerProg) (ctx : Context) : Outcome :=
  stepCall f tan (Call.cprog p) ctx

/-- Context.Next: advance the cursor and re-enter the chain. -/
def next (f : Nat) (tan : Tango) (ctx : Context) : Outcome :=
  stepCall f tan Call.cnext ctx

/-- Context.invoke: run the current link of the current stage, or fall
through to execute when the stage is exhausted. -/
def invoke (f : Nat) (tan : Tango) (ctx : Context) : Outcome :=
  stepCall f tan Call.cinvoke ctx

/-- Context.execute: resolve, then either enter the route-local stage,
invoke the action per its shape, or synthesize a not-found abort. -/
def execute (f : Nat) (tan : Tango) (ctx : Context) : Outcome :=
  stepCall f tan Call.cexec ctx

/-- ioutil.ReadAll on the modelled body reader: drains the reader. -/
def readAll (b : BodyReader) : Except String (List Nat) × BodyReader :=
  match b.err with
  | some e => (Except.error e, b)
  | none => (Except.ok b.remaining, { remaining := [], err := none })

/-- Context.Body: read the whole body; on success replace the request
body reader with a fresh buffer over the same bytes. -/
def Context.Body (ctx : Context) : Except String (List Nat) × Context :=
  match readAll ctx.req.body with
  | (Except.error e, b2) => (Except.error e, { ctx with req := { ctx.req with body := b2 } })
  | (Except.ok bs, _) =>
    (Except.ok bs,
      { ctx with req := { ctx.req with body := { remaining := bs, err := none } } })

/-- Project the context out of a completed outcome. -/
def getOk (o : Outcome) : Context :=
  match o with
  | Outcome.ok ctx => ctx
  | _ => default

/-- Is the event a stage transition? -/
def isTrans (e : Event) : Bool :=
  match e with
  | Event.stageTransition _ => true
  | _ => false

/-- Is the event the invocation of a route-local (stage 1) middleware? -/
def isH1 (e : Event) : Bool :=
  match e with
  | Event.handlerRun 1 _ => true
  | _ => false

/-- Is the event an error-handler invocation? -/
def isErrH (e : Event) : Bool :=
  match e with
  | Event.errHandler => true
  | _ => false

/-- Is the event a consultation of the route matcher? -/
def isMatchAtt (e : Event) : Bool :=
  match e with
  | Event.matchAttempt _ _ => true
  | _ => false

/-- Number of stage transitions recorded in a trace. -/
def transCount (l : List Event) : Nat := (l.filter isTrans).length

/-- Number of error-handler invocations recorded in a trace. -/
def errCount (l : List Event) : Nat := (l.filter isErrH).length

/-- Number of matcher consultations recorded in a trace. -/
def matchCount (l : List Event) : Nat := (l.filter isMatchAtt).length

/-- Every stage transition in the trace happened with the cursor at
position at least n (n will be the global handler count). -/
def transGE (n : Nat) (l : List Event) : Bool :=
  l.all fun e =>
    match e with
    | Event.stageTransition i => decide (n ≤ i)
    | _ => true

/-- The trace contains no route-local middleware invocation. -/
def noH1 (l : List Event) : Bool := l.all fun e => !isH1 e

/-- No route-local middleware invocation occurs before the first stage
transition of the trace. -/
def noH1BeforeTrans : List Event → Bool
  | [] => true
  | e :: rest => if isTrans e then true else (!isH1 e) && noH1BeforeTrans rest

/-- Invariant relating the state before and after one run of the chain
machinery: the stage only moves 0 to 1 and never backward, the new trace
suffix contains a stage transition exactly when the stage moved (so the
cursor was reset exactly once, at the transition), every transition
happened with the cursor past the whole global handler list, and when the
run started in stage 0 no route-local middleware ran before the
transition. -/
def stepInv (tan : Tango) (c c' : Context) : Prop :=
  (c'.stage = c.stage ∨ (c.stage = 0 ∧ c'.stage = 1)) ∧
  ∃ d, c'.trace = c.trace ++ d ∧
    transCount d = (if c.stage = 0 ∧ c'.stage = 1 then 1 else 0) ∧
    transGE tan.handlers.length d = true ∧
    (c.stage = 0 → noH1BeforeTrans d = true)

/-- A fresh per-request context over the given request data, as the
transport would hand to the chain after reset. -/
def mkCtx (path meth : String) (body : List Nat) : Context :=
  { tanRef := 0
    logger := 0
    idx := 0
    stage := 0
    req := { path := path, method := meth, body := { remaining := body, err := none } }
    resp := { written := false, out := "" }
    route := none
    params := []
    callArgs := []
    matched := false
    action := none
    Result := none
    trace := [] }

/-- Fixture for C1: a matched function route. -/
def c1Route : Route :=
  { routeType := RouteType.funcRoute, handlers := [], raw := RawHandler.methodRaw,
    method := [], actionId := 3 }

/-- Fixture for C1: dispatcher whose matcher always yields c1Route. -/
def c1Tan : Tango := { handlers := [], matchRoute := fun _ _ => (some c1Route, [("id", "7")]) }

/-- Fixture for C1: initial context. -/
def c1Ctx : Context := mkCtx "/u/7" "GET" []

/-- Fixture for C1: the context after first resolution. -/
def c1Out : Context :=
  match Context.newAction c1Tan c1Ctx with
  | Except.ok c => c
  | Except.error _ => default

/-- Fixture for C2: a route with one local middleware link. -/
def c2Route : Route :=
  { routeType := RouteType.funcCtxRoute, handlers := [HandlerProg.hnext],
    raw := RawHandler.funcCtx HandlerProg.hskip, method := [], actionId := 5 }

/-- Fixture for C2: one global middleware link, matcher yields c2Route. -/
def c2Tan : Tango :=
  { handlers := [HandlerProg.hnext], matchRoute := fun _ _ => (some c2Route, []) }

/-- Fixture for C2: initial context. -/
def c2Ctx : Context := mkCtx "/a" "GET" []

/-- Fixture for C2: final state of the chain run. -/
def c2Out : Context := getOk (invoke 20 c2Tan c2Ctx)

/-- Fixture for C3: dispatcher whose matcher never matches. -/
def c3Tan : Tango := { handlers := [], matchRoute := fun _ _ => (none, []) }

/-- Fixture for C3: initial context. -/
def c3Ctx : Context := mkCtx "/miss" "GET" []

/-- Fixture for C3: state after resolution of the unmatched request. -/
def c3Out : Context :=
  match Context.newAction c3Tan c3Ctx with
  | Except.ok c => c
  | Except.error _ => default

/-- Fixture for C4: a pointer-receiver action returning (404, nope). -/
def c4Route : Route :=
  { routeType := RouteType.structPtrRoute, handlers := [], raw := RawHandler.methodRaw,
    method := [GoValue.vInt 404, GoValue.vStr "nope"], actionId := 9 }

/-- Fixture for C4: dispatcher matching c4Route. -/
def c4Tan : Tango := { handlers := [], matchRoute := fun _ _ => (some c4Route, []) }

/-- Fixture for C4: initial context. -/
def c4Ctx : Context := mkCtx "/m" "POST" []

/-- Fixture for C4: state after resolution. -/
def c4Out : Context :=
  match Context.newAction c4Tan c4Ctx with
  | Except.ok c => c
  | Except.error _ => default

/-- Fixture for C5: a route that must never be reached. -/
def c5Route : Route :=
  { routeType := RouteType.funcRoute, handlers := [], raw := RawHandler.methodRaw,
    method := [GoValue.vStr "unreachable"], actionId := 2 }

/-- Fixture for C5: first global middleware aborts with 401 x. -/
def c5Tan : Tango :=
  { handlers := [HandlerProg.habort 401 "x", HandlerProg.hnext],
    matchRoute := fun _ _ => (some c5Route, []) }

/-- Fixture for C5: initial context. -/
def c5Ctx : Context := mkCtx "/s" "GET" []

/-- Fixture for C7: a matched route whose raw handler is the two-argument
request-and-response callable of the type switch. -/
def c7Route : Route :=
  { routeType := RouteType.funcHttpRoute, handlers := [],
    raw := RawHandler.funcReqResp none, method := [], actionId := 7 }

/-- Fixture for C7: dispatcher matching c7Route, no middleware. -/
def c7Tan : Tango := { handlers := [], matchRoute := fun _ _ => (some c7Route, []) }

/-- Fixture for C7: initial context. -/
def c7Ctx : Context := mkCtx "/x" "GET" []

/-- Fixture for C7: final state of executing the request. -/
def c7Out : Context := getOk (execute 3 c7Tan c7Ctx)

/-- Fixture for C7 amended claim: state after resolution. -/
def c7Res : Context :=
  match Context.newAction c7Tan c7Ctx with
  | Except.ok c => c
  | Except.error _ => default

/-- Whether a routeType is one of the seven supported kinds. -/
def supported (t : RouteType) : Bool :=
  match t with
  | RouteType.other _ => false
  | _ => true

/-- Whether resolution completed without a panic. -/
def isOkE (r : Except String Context) : Bool :=
  match r with
  | Except.ok _ => true
  | Except.error _ => false

/-- Fixture for C8: a route carrying an unsupported kind tag. -/
def c8BadRoute : Route :=
  { routeType := RouteType.other 99, handlers := [], raw := RawHandler.methodRaw,
    method := [], actionId := 1 }

/-- Fixture for C8: dispatcher matching the unsupported route. -/
def c8BadTan : Tango := { handlers := [], matchRoute := fun _ _ => (some c8BadRoute, []) }

/-- Fixture for C8: a route carrying a supported kind tag. -/
def c8GoodRoute : Route :=
  { routeType := RouteType.funcRoute, handlers := [], raw := RawHandler.methodRaw,
    method := [], actionId := 1 }

/-- Fixture for C8: dispatcher matching the supported route. -/
def c8GoodTan : Tango := { handlers := [], matchRoute := fun _ _ => (some c8GoodRoute, []) }

/-- Fixture for C8: initial context. -/
def c8Ctx : Context := mkCtx "/k" "GET" []

/-- Fixture for C10: a context whose request carries body bytes. -/
def c10Ctx : Context := mkCtx "/b" "POST" [104, 105]

/-- Fixture for C10: the context after the first Body call. -/
def c10Out : Context := (Context.Body c10Ctx).2

/-! ## Trace lemmas -/

theorem transCount_append (a b : List Event) :
    transCount (a ++ b) = transCount a + transCount b := by
  simp [transCount, List.filter_append]

theorem errCount_append (a b : List Event) :
    errCount (a ++ b) = errCount a + errCount b := by
  simp [errCount, List.filter_append]

theorem matchCount_append (a b : List Event) :
    matchCount (a ++ b) = matchCount a + matchCount b := by
  simp [matchCount, List.filter_append]

theorem transGE_append (n : Nat) (a b : List Event) :
    transGE n (a ++ b) = (transGE n a && transGE n b) := by
  simp [transGE, List.all_append]

theorem noH1_append (a b : List Event) :
    noH1 (a ++ b) = (noH1 a && noH1 b) := by
  simp [noH1, List.all_append]

theorem transCount_cons (e : Event) (l : List Event) :
    transCount (e :: l) = (if isTrans e then 1 else 0) + transCount l := by
  simp only [transCount, List.filter_cons]
  split
  · simp [Nat.add_comm]
  · simp

theorem noH1_of_noH1BeforeTrans (l : List Event) (h : noH1BeforeTrans l = true)
    (ht : transCount l = 0) : noH1 l = true := by
  induction l with
  | nil => rfl
  | cons e rest ih =>
    rw [transCount_cons] at ht
    cases hte : isTrans e with
    | true => simp [hte] at ht
    | false =>
      simp only [hte, Bool.false_eq_true, if_false, Nat.zero_add] at ht
      simp only [noH1BeforeTrans, hte, Bool.false_eq_true, if_false, Bool.and_eq_true] at h
      simp only [noH1, List.all_cons, Bool.and_eq_true]
      exact ⟨h.1, ih h.2 ht⟩

theorem noH1BeforeTrans_append_of_noH1 (a b : List Event) (ha : noH1 a = true)
    (hb : noH1BeforeTrans b = true) : noH1BeforeTrans (a ++ b) = true := by
  induction a with
  | nil => simpa
  | cons e rest ih =>
    simp only [noH1, List.all_cons, Bool.and_eq_true] at ha
    cases hte : isTrans e with
    | true => simp [noH1BeforeTrans, hte]
    | false =>
      simp only [List.cons_append, noH1BeforeTrans, hte, Bool.false_eq_true, if_false,
        Bool.and_eq_true]
      exact ⟨ha.1, ih ha.2⟩

theorem noH1BeforeTrans_append_of_trans (a b : List Event) (ha : noH1BeforeTrans a = true)
    (ht : 0 < transCount a) : noH1BeforeTrans (a ++ b) = true := by
  induction a with
  | nil => simp [transCount] at ht
  | cons e rest ih =>
    cases hte : isTrans e with
    | true => simp [noH1BeforeTrans, hte]
    | false =>
      rw [transCount_cons] at ht
      simp only [hte, Bool.false_eq_true, if_false, Nat.zero_add] at ht
      simp only [noH1BeforeTrans, hte, Bool.false_eq_true, if_false, Bool.and_eq_true] at ha
      simp only [List.cons_append, noH1BeforeTrans, hte, Bool.false_eq_true, if_false,
        Bool.and_eq_true]
      exact ⟨ha.1, ih ha.2 ht⟩

/-! ## Resolution (newAction) lemmas -/

theorem newAction_noop (tan : Tango) (ctx : Context) (hm : ctx.matched = true) :
    Context.newAction tan ctx = Except.ok ctx := by
  unfold Context.newAction
  rw [if_pos hm]

theorem newAction_ok_matched (tan : Tango) (ctx c' : Context)
    (h : Context.newAction tan ctx = Except.ok c') : c'.matched = true := by
  by_cases hm : ctx.matched = true
  · rw [newAction_noop tan ctx hm] at h
    injection h with h
    exact h ▸ hm
  · unfold Context.newAction at h
    rw [if_neg hm] at h
    split at h
    · injection h with h
      exact h ▸ rfl
    · split at h
      · cases h
      · injection h with h
        exact h ▸ rfl

theorem newAction_frame (tan : Tango) (ctx c' : Context)
    (h : Context.newAction tan ctx = Except.ok c') :
    c'.idx = ctx.idx ∧ c'.stage = ctx.stage ∧ c'.req = ctx.req ∧ c'.resp = ctx.resp ∧
    c'.Result = ctx.Result ∧ c'.tanRef = ctx.tanRef ∧ c'.logger = ctx.logger ∧
    (c'.trace = ctx.trace ∨
      c'.trace = ctx.trace ++
        [Event.matchAttempt (removeStick ctx.req.path) ctx.req.method]) := by
  by_cases hm : ctx.matched = true
  · rw [newAction_noop tan ctx hm] at h
    injection h with h
    subst h
    exact ⟨rfl, rfl, rfl, rfl, rfl, rfl, rfl, Or.inl rfl⟩
  · unfold Context.newAction at h
    rw [if_neg hm] at h
    split at h
    · injection h with h
      subst h
      exact ⟨rfl, rfl, rfl, rfl, rfl, rfl, rfl, Or.inr rfl⟩
    · split at h
      · cases h
      · injection h with h
        subst h
        exact ⟨rfl, rfl, rfl, rfl, rfl, rfl, rfl, Or.inr rfl⟩

/-! ## Chain invariant: constructors and composition -/

theorem transCount_one (e : Event) (h : isTrans e = false) : transCount [e] = 0 := by
  rw [transCount_cons]
  simp [h, transCount]

theorem transGE_one (n : Nat) (e : Event) (h : isTrans e = false) : transGE n [e] = true := by
  cases e
  case stageTransition i => simp [isTrans] at h
  all_goals simp [transGE]

theorem noH1BT_one (e : Event) (h : isH1 e = false) : noH1BeforeTrans [e] = true := by
  cases hte : isTrans e <;> simp [noH1BeforeTrans, hte, h]

theorem stepInv_refl (tan : Tango) (c : Context) : stepInv tan c c := by
  refine ⟨Or.inl rfl, [], by simp, ?_, rfl, fun _ => rfl⟩
  rw [if_neg]
  · rfl
  · rintro ⟨h0, h1⟩
    omega

theorem stepInv_mk (tan : Tango) (c c' : Context) (d : List Event)
    (hs : c'.stage = c.stage) (ht : c'.trace = c.trace ++ d)
    (h1 : transCount d = 0) (h2 : transGE tan.handlers.length d = true)
    (h3 : noH1BeforeTrans d = true) : stepInv tan c c' := by
  refine ⟨Or.inl hs, d, ht, ?_, h2, fun _ => h3⟩
  rw [h1, if_neg]
  rintro ⟨h0, h1'⟩
  omega

theorem stepInv_mk1 (tan : Tango) (c c' : Context) (d : List Event)
    (hstage0 : c.stage ≠ 0) (hs : c'.stage = c.stage) (ht : c'.trace = c.trace ++ d)
    (h1 : transCount d = 0) (h2 : transGE tan.handlers.length d = true) :
    stepInv tan c c' := by
  refine ⟨Or.inl hs, d, ht, ?_, h2, fun h0 => absurd h0 hstage0⟩
  rw [h1, if_neg]
  rintro ⟨h0, _⟩
  exact hstage0 h0

theorem stepInv_transition (tan : Tango) (c1 : Context) (h0 : c1.stage = 0)
    (hidx : tan.handlers.length ≤ c1.idx) :
    stepInv tan c1
      (pushEvent (Event.stageTransition c1.idx) { c1 with idx := 0, stage := 1 }) := by
  refine ⟨Or.inr ⟨h0, rfl⟩, [Event.stageTransition c1.idx], rfl, ?_, ?_, fun _ => rfl⟩
  · rw [if_pos ⟨h0, rfl⟩]
    rfl
  · simp [transGE, hidx]

theorem stepInv_comp (tan : Tango) (a b c : Context)
    (h1 : stepInv tan a b) (h2 : stepInv tan b c) : stepInv tan a c := by
  obtain ⟨hs1, d1, ht1, hc1, hg1, hn1⟩ := h1
  obtain ⟨hs2, d2, ht2, hc2, hg2, hn2⟩ := h2
  refine ⟨?_, d1 ++ d2, by rw [ht2, ht1, List.append_assoc], ?_, ?_, ?_⟩
  · rcases hs1 with h | ⟨ha0, hb1⟩
    · rcases hs2 with h' | ⟨hb0, hc1'⟩
      · exact Or.inl (h'.trans h)
      · exact Or.inr ⟨h ▸ hb0, hc1'⟩
    · rcases hs2 with h' | ⟨hb0, _⟩
      · exact Or.inr ⟨ha0, h'.trans hb1⟩
      · omega
  · rw [transCount_append, hc1, hc2]
    rcases hs1 with h | ⟨ha0, hb1⟩ <;> rcases hs2 with h' | ⟨hb0, hc1'⟩ <;>
      split_ifs with hA hB hC <;> omega
  · rw [transGE_append, hg1, hg2]
    rfl
  · intro ha0
    rcases hs1 with h | ⟨_, hb1⟩
    · have hb0 : b.stage = 0 := h.trans ha0
      have hcnt : transCount d1 = 0 := by
        rw [hc1, if_neg]
        rintro ⟨_, h1'⟩
        omega
      exact noH1BeforeTrans_append_of_noH1 d1 d2
        (noH1_of_noH1BeforeTrans d1 (hn1 ha0) hcnt) (hn2 hb0)
    · have hcnt : transCount d1 = 1 := by rw [hc1, if_pos ⟨ha0, hb1⟩]
      exact noH1BeforeTrans_append_of_trans d1 d2 (hn1 ha0) (by omega)

theorem stepInv_newAction (tan : Tango) (ctx c' : Context)
    (h : Context.newAction tan ctx = Except.ok c') : stepInv tan ctx c' := by
  obtain ⟨-, hs, -, -, -, -, -, htr⟩ := newAction_frame tan ctx c' h
  rcases htr with htr | htr
  · exact stepInv_mk tan ctx c' [] hs (by simpa using htr) rfl rfl rfl
  · exact stepInv_mk tan ctx c' [Event.matchAttempt (removeStick ctx.req.path) ctx.req.method]
      hs htr (transCount_one _ rfl) (transGE_one _ _ rfl) (noH1BT_one _ rfl)

theorem capture_frame (ret : List GoValue) (c : Context) :
    (capture ret c).stage = c.stage ∧ (capture ret c).trace = c.trace ∧
    (capture ret c).idx = c.idx := by
  match ret with
  | [] => exact ⟨rfl, rfl, rfl⟩
  | [v] => exact ⟨rfl, rfl, rfl⟩
  | [v1, v2] => cases v1 <;> exact ⟨rfl, rfl, rfl⟩
  | v1 :: v2 :: v3 :: rest => exact ⟨rfl, rfl, rfl⟩

theorem applyWrite_frame (w : Option String) (c : Context) :
    (applyWrite w c).stage = c.stage ∧ (applyWrite w c).trace = c.trace ∧
    (applyWrite w c).idx = c.idx := by
  cases w <;> exact ⟨rfl, rfl, rfl⟩

theorem stepInv_rawPush (tan : Tango) (c1 : Context) (e : Event) (w : Option String)
    (ht : isTrans e = false) (hh : isH1 e = false) :
    stepInv tan c1 (capture [] (applyWrite w (pushEvent e c1))) := by
  cases w <;>
    exact stepInv_mk tan c1 _ [e] rfl rfl (transCount_one _ ht) (transGE_one _ _ ht)
      (noH1BT_one _ hh)


theorem stepCall_stepInv (f : Nat) :
    ∀ (tan : Tango) (c : Call) (ctx ctx' : Context),
      stepCall f tan c ctx = Outcome.ok ctx' →
      (c = Call.cexec → ctx.stage = 0 → tan.handlers.length ≤ ctx.idx) →
      stepInv tan ctx ctx' := by
  induction f with
  | zero =>
    intro tan c ctx ctx' h _
    simp [stepCall] at h
  | succ f ih =>
    intro tan c ctx ctx' h hpre
    cases c with
    | cprog p =>
      clear hpre
      cases p with
      | hskip =>
        simp only [stepCall] at h
        injection h with h
        subst h
        exact stepInv_refl tan ctx
      | hnext =>
        simp only [stepCall] at h
        exact ih tan Call.cnext ctx ctx' h (fun hc => Call.noConfusion hc)
      | habort s b =>
        simp only [stepCall] at h
        injection h with h
        subst h
        exact stepInv_mk tan ctx _ [Event.errHandler] rfl rfl (transCount_one _ rfl)
          (transGE_one _ _ rfl) (noH1BT_one _ rfl)
      | hwrite s =>
        simp only [stepCall] at h
        injection h with h
        subst h
        exact stepInv_mk tan ctx _ [] rfl (by simp [writeResp]) rfl rfl rfl
      | hresolve =>
        simp only [stepCall] at h
        cases hna : Context.newAction tan ctx with
        | error m =>
          rw [hna] at h
          exact Outcome.noConfusion h
        | ok c1 =>
          rw [hna] at h
          injection h with h
          subst h
          exact stepInv_newAction tan ctx _ hna
      | hseq a b =>
        simp only [stepCall] at h
        cases hs1 : stepCall f tan (Call.cprog a) ctx with
        | ok c1 =>
          rw [hs1] at h
          exact stepInv_comp tan ctx c1 ctx'
            (ih tan (Call.cprog a) ctx c1 hs1 (fun hc => Call.noConfusion hc))
            (ih tan (Call.cprog b) c1 ctx' h (fun hc => Call.noConfusion hc))
        | panicked m =>
          rw [hs1] at h
          exact Outcome.noConfusion h
        | fuelOut =>
          rw [hs1] at h
          exact Outcome.noConfusion h
    | cnext =>
      simp only [stepCall] at h
      refine stepInv_comp tan ctx { ctx with idx := ctx.idx + 1 } ctx' ?_
        (ih tan Call.cinvoke _ ctx' h (fun hc => Call.noConfusion hc))
      exact stepInv_mk tan ctx _ [] rfl (by simp) rfl rfl rfl
    | cinvoke =>
      clear hpre
      simp only [stepCall] at h
      by_cases hs0 : ctx.stage = 0
      · rw [if_pos hs0] at h
        by_cases hidx : ctx.idx < tan.handlers.length
        · rw [dif_pos hidx] at h
          refine stepInv_comp tan ctx _ ctx' ?_
            (ih tan (Call.cprog _) _ ctx' h (fun hc => Call.noConfusion hc))
          exact stepInv_mk tan ctx _ [Event.handlerRun 0 ctx.idx] rfl rfl
            (transCount_one _ rfl) (transGE_one _ _ rfl) (noH1BT_one _ rfl)
        · rw [dif_neg hidx] at h
          exact ih tan Call.cexec ctx ctx' h (fun _ _ => Nat.le_of_not_lt hidx)
      · rw [if_neg hs0] at h
        by_cases hs1 : ctx.stage = 1
        · rw [if_pos hs1] at h
          cases hroute : ctx.route with
          | none =>
            rw [hroute] at h
            exact Outcome.noConfusion h
          | some r =>
            simp only [hroute] at h
            by_cases hidx : ctx.idx < r.handlers.length
            · rw [dif_pos hidx] at h
              refine stepInv_comp tan ctx _ ctx' ?_
                (ih tan (Call.cprog _) _ ctx' h (fun hc => Call.noConfusion hc))
              exact stepInv_mk1 tan ctx _ [Event.handlerRun 1 ctx.idx] hs0 rfl rfl
                (transCount_one _ rfl) (transGE_one _ _ rfl)
            · rw [dif_neg hidx] at h
              exact ih tan Call.cexec ctx ctx' h (fun _ h0 => absurd h0 hs0)
        · rw [if_neg hs1] at h
          injection h with h
          subst h
          exact stepInv_refl tan ctx
    | cexec =>
      have hpre' := hpre rfl
      clear hpre
      simp only [stepCall] at h
      split at h
      · exact Outcome.noConfusion h
      · rename_i c1 hna
        have inv1 := stepInv_newAction tan ctx c1 hna
        obtain ⟨hIdx, hStage, -, -, -, -, -, -⟩ := newAction_frame tan ctx c1 hna
        split at h
        · rename_i haction
          by_cases hw : c1.resp.written = true
          · rw [if_pos hw] at h
            injection h with h
            subst h
            exact inv1
          · rw [if_neg hw] at h
            injection h with h
            subst h
            refine stepInv_comp tan ctx c1 _ inv1 ?_
            exact stepInv_mk tan c1 _ [Event.errHandler] rfl rfl (transCount_one _ rfl)
              (transGE_one _ _ rfl) (noH1BT_one _ rfl)
        · rename_i a haction
          split at h
          · exact Outcome.noConfusion h
          · rename_i r hroute
            by_cases hguard : 0 < r.handlers.length ∧ c1.stage = 0
            · rw [if_pos hguard] at h
              have htrans := stepInv_transition tan c1 hguard.2
                (by rw [hIdx]; exact hpre' (hStage.symm.trans hguard.2))
              exact stepInv_comp tan ctx c1 ctx' inv1
                (stepInv_comp tan c1 _ ctx' htrans
                  (ih tan Call.cinvoke _ ctx' h (fun hc => Call.noConfusion hc)))
            · rw [if_neg hguard] at h
              split at h
              · rename_i p hraw
                cases hs2 : stepCall f tan (Call.cprog p)
                    (pushEvent (Event.rawCall [ArgTag.actx]) c1) with
                | ok c2 =>
                  rw [hs2] at h
                  injection h with h
                  subst h
                  have hcap : capture [] c2 = c2 := rfl
                  rw [hcap]
                  refine stepInv_comp tan ctx c1 c2 inv1 ?_
                  refine stepInv_comp tan c1 _ c2 ?_
                    (ih tan (Call.cprog p) _ c2 hs2 (fun hc => Call.noConfusion hc))
                  exact stepInv_mk tan c1 _ [Event.rawCall [ArgTag.actx]] rfl rfl
                    (transCount_one _ rfl) (transGE_one _ _ rfl) (noH1BT_one _ rfl)
                | panicked m =>
                  rw [hs2] at h
                  exact Outcome.noConfusion h
                | fuelOut =>
                  rw [hs2] at h
                  exact Outcome.noConfusion h
              · rename_i w hraw
                injection h with h
                subst h
                exact stepInv_comp tan ctx c1 _ inv1
                  (stepInv_rawPush tan c1 (Event.rawCall [ArgTag.areq, ArgTag.aresp]) w rfl rfl)
              · rename_i hraw
                injection h with h
                subst h
                exact stepInv_comp tan ctx c1 _ inv1
                  (stepInv_rawPush tan c1 (Event.rawCall []) none rfl rfl)
              · rename_i hraw
                injection h with h
                subst h
                exact stepInv_comp tan ctx c1 _ inv1
                  (stepInv_rawPush tan c1 (Event.rawCall [ArgTag.areq]) none rfl rfl)
              · rename_i w hraw
                injection h with h
                subst h
                exact stepInv_comp tan ctx c1 _ inv1
                  (stepInv_rawPush tan c1 (Event.rawCall [ArgTag.aresp]) w rfl rfl)
              · rename_i hraw
                injection h with h
                subst h
                refine stepInv_comp tan ctx c1 _ inv1 ?_
                have hcf := capture_frame r.method
                  (pushEvent (Event.methodCall c1.callArgs) c1)
                exact stepInv_mk tan c1 _ [Event.methodCall c1.callArgs] hcf.1
                  (by rw [hcf.2.1]; rfl) (transCount_one _ rfl) (transGE_one _ _ rfl)
                  (noH1BT_one _ rfl)

/-! ## Claim theorems -/

theorem matchCount_one (p m : String) : matchCount [Event.matchAttempt p m] = 1 := rfl

/-- C1: resolution is memoized and idempotent: the first newAction call (the
one Route, Params, Action and execute trigger) performs the route match and
construction; any call on an already-resolved context is a no-op, leaving
route, params, action, callArgs and matched exactly as the first call left
them, and consulting the matcher exactly once per request — including the
unmatched case, where matched becomes true with route and action still null. -/
theorem c1_resolution_memoized_idempotent (tan : Tango) (ctx c' : Context)
    (h : Context.newAction tan ctx = Except.ok c') :
    c'.matched = true ∧
    Context.newAction tan c' = Except.ok c' ∧
    RouteAcc tan c' = Except.ok (c'.route, c') ∧
    ParamsAcc tan c' = Except.ok (c'.params, c') ∧
    ActionAcc tan c' = Except.ok (c'.action, c') ∧
    (ctx.matched = true → c' = ctx) ∧
    (ctx.matched = false → matchCount c'.trace = matchCount ctx.trace + 1) ∧
    (ctx.matched = false → ctx.action = none →
      (tan.matchRoute (removeStick ctx.req.path) ctx.req.method).1 = none →
      c'.route = none ∧ c'.action = none) := by
  have hcm := newAction_ok_matched tan ctx c' h
  have hnoop := newAction_noop tan c' hcm
  refine ⟨hcm, hnoop, ?_, ?_, ?_, ?_, ?_, ?_⟩
  · unfold RouteAcc
    rw [hnoop]
  · unfold ParamsAcc
    rw [hnoop]
  · unfold ActionAcc
    rw [hnoop]
  · intro hm
    rw [newAction_noop tan ctx hm] at h
    injection h with h
    exact h.symm
  · intro hm
    unfold Context.newAction at h
    rw [if_neg (by simp [hm])] at h
    split at h
    · injection h with h
      subst h
      simp [matchCount_append, matchCount_one]
    · split at h
      · exact Except.noConfusion h
      · injection h with h
        subst h
        simp [matchCount_append, matchCount_one]
  · intro hm ha hnone
    unfold Context.newAction at h
    rw [if_neg (by simp [hm])] at h
    split at h
    · injection h with h
      subst h
      exact ⟨rfl, ha⟩
    · rename_i r ps heq
      rw [heq] at hnone
      exact Option.noConfusion hnone

/-- Witness for C1: a concrete matched request, resolved twice. -/
theorem c1_witness :
    Context.newAction c1Tan c1Ctx = Except.ok c1Out ∧
    c1Out.matched = true ∧
    Context.newAction c1Tan c1Out = Except.ok c1Out ∧
    RouteAcc c1Tan c1Out = Except.ok (c1Out.route, c1Out) ∧
    matchCount c1Out.trace = matchCount c1Ctx.trace + 1 := by
  have h := c1_resolution_memoized_idempotent c1Tan c1Ctx c1Out rfl
  exact ⟨rfl, h.1, h.2.1, h.2.2.1, h.2.2.2.2.2.2.1 rfl⟩

/-- C3: for a request resolved with no matching route, execute synthesizes the
default 404 abort and invokes the error handler exactly once when the response
is not yet written; when it is already written, execute does nothing: the
result is untouched and the error handler is not called. -/
theorem c3_unmatched_notfound_or_noop (f : Nat) (tan : Tango) (ctx c1 : Context)
    (h : Context.newAction tan ctx = Except.ok c1) (ha : c1.action = none) :
    (c1.resp.written = false →
      execute (f + 1) tan ctx = Outcome.ok (Context.NotFound c1 []) ∧
      (Context.NotFound c1 []).Result = some (GoValue.vAbort 404 "Not Found") ∧
      errCount (Context.NotFound c1 []).trace = errCount ctx.trace + 1) ∧
    (c1.resp.written = true →
      execute (f + 1) tan ctx = Outcome.ok c1 ∧
      c1.Result = ctx.Result ∧
      errCount c1.trace = errCount ctx.trace) := by
  obtain ⟨-, -, -, -, hres, -, -, htr⟩ := newAction_frame tan ctx c1 h
  have herr : errCount c1.trace = errCount ctx.trace := by
    rcases htr with htr | htr
    · rw [htr]
    · rw [htr, errCount_append]
      rfl
  constructor
  · intro hw
    have hexec : execute (f + 1) tan ctx = Outcome.ok (Context.NotFound c1 []) := by
      unfold execute
      simp only [stepCall, h, ha]
      rw [if_neg (by simp [hw])]
    refine ⟨hexec, rfl, ?_⟩
    rw [show (Context.NotFound c1 []).trace = c1.trace ++ [Event.errHandler] from rfl,
      errCount_append, herr]
    rfl
  · intro hw
    refine ⟨?_, hres, herr⟩
    unfold execute
    simp only [stepCall, h, ha]
    rw [if_pos hw]

/-- Witness for C3: a concrete unmatched request with unwritten response. -/
theorem c3_witness :
    Context.newAction c3Tan c3Ctx = Except.ok c3Out ∧
    c3Out.action = none ∧
    c3Out.resp.written = false ∧
    execute 1 c3Tan c3Ctx = Outcome.ok (Context.NotFound c3Out []) ∧
    (Context.NotFound c3Out []).Result = some (GoValue.vAbort 404 "Not Found") ∧
    errCount (Context.NotFound c3Out []).trace = errCount c3Ctx.trace + 1 := by
  have h := (c3_unmatched_notfound_or_noop 0 c3Tan c3Ctx c3Out rfl rfl).1 rfl
  exact ⟨rfl, rfl, rfl, h.1, h.2.1, h.2.2⟩

/-- C6: Abort sets Result to the Abort value for the given status and body,
then invokes the error handler once, and modifies no other context state: the
dispatch cursor and the resolution cache are untouched. -/
theorem c6_abort_only_sets_result_and_calls_error_handler (ctx : Context)
    (status : Int) (body : String) :
    Context.Abort ctx status body =
      { ctx with Result := some (GoValue.vAbort status body),
                 trace := ctx.trace ++ [Event.errHandler] } ∧
    errCount (Context.Abort ctx status body).trace = errCount ctx.trace + 1 ∧
    (Context.Abort ctx status body).idx = ctx.idx ∧
    (Context.Abort ctx status body).stage = ctx.stage ∧
    (Context.Abort ctx status body).route = ctx.route ∧
    (Context.Abort ctx status body).params = ctx.params ∧
    (Context.Abort ctx status body).callArgs = ctx.callArgs ∧
    (Context.Abort ctx status body).matched = ctx.matched ∧
    (Context.Abort ctx status body).action = ctx.action ∧
    (Context.Abort ctx status body).req = ctx.req ∧
    (Context.Abort ctx status body).resp = ctx.resp := by
  refine ⟨rfl, ?_, rfl, rfl, rfl, rfl, rfl, rfl, rfl, rfl, rfl⟩
  rw [show (Context.Abort ctx status body).trace = ctx.trace ++ [Event.errHandler] from rfl,
    errCount_append]
  rfl

/-- C9: reset installs the new request and response writer, zeroes the cursor,
the whole resolution cache and the outcome, and changes nothing else: the
owning dispatcher reference and the logger are preserved. -/
theorem c9_reset_zeroes_cursor_cache_outcome (ctx : Context) (req : Request)
    (resp : ResponseWriter) :
    Context.reset ctx req resp =
      { ctx with req := req, resp := resp, idx := 0, stage := 0, route := none,
                 params := [], callArgs := [], matched := false, action := none,
                 Result := none } ∧
    (Context.reset ctx req resp).tanRef = ctx.tanRef ∧
    (Context.reset ctx req resp).logger = ctx.logger ∧
    (Context.reset ctx req resp).trace = ctx.trace :=
  ⟨rfl, rfl, rfl, rfl⟩

/-- C10: Body does not consume the request body destructively: on success it
returns the full body bytes and leaves the request with a fresh reader over
the same bytes, so a second Body call returns the same bytes and the same
state. -/
theorem c10_body_non_destructive (ctx c' : Context) (bs : List Nat)
    (h : Context.Body ctx = (Except.ok bs, c')) :
    c'.req.body = { remaining := bs, err := none } ∧
    Context.Body c' = (Except.ok bs, c') ∧
    c'.req.path = ctx.req.path ∧ c'.req.method = ctx.req.method ∧
    c'.Result = ctx.Result ∧ c'.trace = ctx.trace := by
  unfold Context.Body at h
  split at h
  · rw [Prod.mk.injEq] at h
    exact Except.noConfusion h.1
  · rename_i bs0 b2 heq
    rw [Prod.mk.injEq] at h
    obtain ⟨h1, h2⟩ := h
    injection h1 with h1
    subst h1
    subst h2
    exact ⟨rfl, rfl, rfl, rfl, rfl, rfl⟩

/-- Witness for C10: a concrete two-byte body read twice. -/
theorem c10_witness :
    Context.Body c10Ctx = (Except.ok [104, 105], c10Out) ∧
    c10Out.req.body = { remaining := [104, 105], err := none } ∧
    Context.Body c10Out = (Except.ok [104, 105], c10Out) := by
  have h := c10_body_non_destructive c10Ctx c10Out [104, 105] rfl
  exact ⟨rfl, h.1, h.2.1⟩

/-- C4: when the final invoker calls a method-style action reflectively,
zero return values leave Result untouched, one return value becomes Result,
two return values with an integer first become a StatusResult with that code
and the second value as payload — in particular (404, nope) yields
StatusResult 404 nope — and any other shape (two values with non-integer
first, or three or more) leaves Result unchanged. -/
theorem c4_method_return_shapes (f : Nat) (tan : Tango) (ctx c1 : Context) (r : Route)
    (a : Nat)
    (h : Context.newAction tan ctx = Except.ok c1)
    (hr : c1.route = some r) (ha : c1.action = some a)
    (hraw : r.raw = RawHandler.methodRaw)
    (hst : r.handlers.length = 0 ∨ c1.stage ≠ 0) :
    execute (f + 1) tan ctx =
      Outcome.ok (capture r.method (pushEvent (Event.methodCall c1.callArgs) c1)) ∧
    (r.method = [] →
      (capture r.method (pushEvent (Event.methodCall c1.callArgs) c1)).Result =
        ctx.Result) ∧
    (∀ v, r.method = [v] →
      (capture r.method (pushEvent (Event.methodCall c1.callArgs) c1)).Result = some v) ∧
    (∀ code p, r.method = [GoValue.vInt code, p] →
      (capture r.method (pushEvent (Event.methodCall c1.callArgs) c1)).Result =
        some (GoValue.vStatusResult code p)) ∧
    (∀ v1 v2, r.method = [v1, v2] → (∀ code, v1 ≠ GoValue.vInt code) →
      (capture r.method (pushEvent (Event.methodCall c1.callArgs) c1)).Result =
        ctx.Result) ∧
    (3 ≤ r.method.length →
      (capture r.method (pushEvent (Event.methodCall c1.callArgs) c1)).Result =
        ctx.Result) := by
  obtain ⟨-, -, -, -, hres, -, -, -⟩ := newAction_frame tan ctx c1 h
  have hexec : execute (f + 1) tan ctx =
      Outcome.ok (capture r.method (pushEvent (Event.methodCall c1.callArgs) c1)) := by
    unfold execute
    simp only [stepCall, h, ha, hr, hraw]
    rw [if_neg]
    rintro ⟨hlen, hstage⟩
    rcases hst with h1 | h1
    · omega
    · exact h1 hstage
  refine ⟨hexec, ?_, ?_, ?_, ?_, ?_⟩
  · intro hm
    rw [hm]
    exact hres
  · intro v hm
    rw [hm]
    rfl
  · intro code p hm
    rw [hm]
    rfl
  · intro v1 v2 hm hni
    rw [hm]
    cases v1 with
    | vInt code => exact absurd rfl (hni code)
    | vStr s => exact hres
    | vStatusResult c p => exact hres
    | vAbort s b => exact hres
    | vNil => exact hres
  · intro hlen
    rcases hmeq : r.method with _ | ⟨v1, rest1⟩
    · rw [hmeq] at hlen
      simp at hlen
    rcases rest1 with _ | ⟨v2, rest2⟩
    · rw [hmeq] at hlen
      simp at hlen
    rcases rest2 with _ | ⟨v3, rest3⟩
    · rw [hmeq] at hlen
      simp at hlen
    exact hres

/-- Witness for C4: concrete action returning the pair 404 and nope. -/
theorem c4_witness :
    Context.newAction c4Tan c4Ctx = Except.ok c4Out ∧
    c4Out.route = some c4Route ∧ c4Out.action = some 9 ∧
    c4Route.raw = RawHandler.methodRaw ∧ c4Route.handlers.length = 0 ∧
    execute 1 c4Tan c4Ctx =
      Outcome.ok (capture c4Route.method
        (pushEvent (Event.methodCall c4Out.callArgs) c4Out)) ∧
    (capture c4Route.method (pushEvent (Event.methodCall c4Out.callArgs) c4Out)).Result =
      some (GoValue.vStatusResult 404 (GoValue.vStr "nope")) := by
  have h := c4_method_return_shapes 0 c4Tan c4Ctx c4Out c4Route 9 rfl rfl rfl rfl (Or.inl rfl)
  exact ⟨rfl, rfl, rfl, rfl, rfl, h.1, h.2.2.2.1 404 (GoValue.vStr "nope") rfl⟩

/-- C5: a global middleware link that calls Abort 401 x and does not call
Next halts the chain: the run ends right after that link, with Result set to
the 401 abort and the error handler invoked exactly once; the trace delta
shows no later handler run, no stage transition, no raw call and no method
call, so no later global link and not the action executes. -/
theorem c5_abort_in_global_middleware_halts (f : Nat) (tan : Tango) (ctx : Context)
    (h0 : ctx.stage = 0)
    (hi : tan.handlers.get? ctx.idx = some (HandlerProg.habort 401 "x")) :
    invoke (f + 2) tan ctx =
      Outcome.ok { ctx with
        Result := some (GoValue.vAbort 401 "x"),
        trace := ctx.trace ++ [Event.handlerRun 0 ctx.idx, Event.errHandler] } ∧
    errCount (ctx.trace ++ [Event.handlerRun 0 ctx.idx, Event.errHandler]) =
      errCount ctx.trace + 1 := by
  obtain ⟨hlt, hget⟩ := List.get?_eq_some.mp hi
  constructor
  · unfold invoke
    simp only [stepCall]
    rw [if_pos h0, dif_pos hlt, hget]
    simp only [stepCall]
    congr 1
    simp [Context.Abort, Context.HandleError, pushEvent, List.append_assoc]
  · rw [show ctx.trace ++ [Event.handlerRun 0 ctx.idx, Event.errHandler] =
      (ctx.trace ++ [Event.handlerRun 0 ctx.idx]) ++ [Event.errHandler] by simp,
      errCount_append, errCount_append]
    rfl

/-- Witness for C5: first global link aborts with 401 x. -/
theorem c5_witness :
    c5Ctx.stage = 0 ∧
    c5Tan.handlers.get? c5Ctx.idx = some (HandlerProg.habort 401 "x") ∧
    invoke 2 c5Tan c5Ctx =
      Outcome.ok { c5Ctx with
        Result := some (GoValue.vAbort 401 "x"),
        trace := c5Ctx.trace ++ [Event.handlerRun 0 c5Ctx.idx, Event.errHandler] } := by
  have h := c5_abort_in_global_middleware_halts 0 c5Tan c5Ctx rfl rfl
  exact ⟨rfl, rfl, h.1⟩

/-- C7 counterexample: the claim says the two-argument http callable is
invoked response first; in fact the type switch in execute invokes the shape
func of request and response writer as fn of request then response writer, so
in a concrete run of a matched funcReqResp route the trace records
rawCall [areq, aresp] and never rawCall [aresp, areq]. -/
theorem c7_counterexample :
    execute 3 c7Tan c7Ctx = Outcome.ok c7Out ∧
    c7Out.route = some c7Route ∧
    c7Route.raw = RawHandler.funcReqResp none ∧
    c7Out.trace =
      [Event.matchAttempt "/x" "GET", Event.rawCall [ArgTag.areq, ArgTag.aresp]] ∧
    Event.rawCall [ArgTag.aresp, ArgTag.areq] ∉ c7Out.trace := by
  refine ⟨rfl, rfl, rfl, rfl, ?_⟩
  decide

/-- C7 amended: for every matched route whose raw handler is the two-argument
http callable shape of the type switch, the final invoker calls it with the
request first and the response writer second, and captures no return value:
Result is unchanged. -/
theorem c7_amended_request_then_response (f : Nat) (tan : Tango) (ctx c1 : Context)
    (r : Route) (a : Nat) (w : Option String)
    (h : Context.newAction tan ctx = Except.ok c1)
    (hr : c1.route = some r) (ha : c1.action = some a)
    (hraw : r.raw = RawHandler.funcReqResp w)
    (hst : r.handlers.length = 0 ∨ c1.stage ≠ 0) :
    execute (f + 1) tan ctx =
      Outcome.ok (capture [] (applyWrite w
        (pushEvent (Event.rawCall [ArgTag.areq, ArgTag.aresp]) c1))) ∧
    (capture [] (applyWrite w
      (pushEvent (Event.rawCall [ArgTag.areq, ArgTag.aresp]) c1))).Result =
      ctx.Result := by
  obtain ⟨-, -, -, -, hres, -, -, -⟩ := newAction_frame tan ctx c1 h
  constructor
  · unfold execute
    simp only [stepCall, h, ha, hr, hraw]
    rw [if_neg]
    rintro ⟨hlen, hstage⟩
    rcases hst with h1 | h1
    · omega
    · exact h1 hstage
  · cases w with
    | none => exact hres
    | some s => exact hres

/-- Witness for C7 amended: the concrete funcReqResp route. -/
theorem c7_witness :
    Context.newAction c7Tan c7Ctx = Except.ok c7Res ∧
    c7Res.route = some c7Route ∧ c7Res.action = some 7 ∧
    c7Route.raw = RawHandler.funcReqResp none ∧
    execute 1 c7Tan c7Ctx =
      Outcome.ok (capture [] (applyWrite none
        (pushEvent (Event.rawCall [ArgTag.areq, ArgTag.aresp]) c7Res))) ∧
    (capture [] (applyWrite none
      (pushEvent (Event.rawCall [ArgTag.areq, ArgTag.aresp]) c7Res))).Result =
      c7Ctx.Result := by
  have h := c7_amended_request_then_response 0 c7Tan c7Ctx c7Res c7Route 7 none rfl rfl rfl
    rfl (Or.inl rfl)
  exact ⟨rfl, rfl, rfl, rfl, h.1, h.2⟩

theorem callArgsFor_none_iff (t : RouteType) (vc : Nat) :
    callArgsFor t vc = none ↔ supported t = false := by
  cases t <;> simp [callArgsFor, supported]

/-- C8: if the matched route's kind tag is none of the seven supported kinds,
resolution fails fatally with the routeType error panic; for every supported
kind it completes without a panic. -/
theorem c8_unsupported_kind_panics (tan : Tango) (ctx : Context) (r : Route)
    (ps : List (String × String))
    (hm : ctx.matched = false)
    (hmr : tan.matchRoute (removeStick ctx.req.path) ctx.req.method = (some r, ps)) :
    (supported r.routeType = false →
      Context.newAction tan ctx = Except.error "routeType error") ∧
    (supported r.routeType = true → isOkE (Context.newAction tan ctx) = true) := by
  have hred : Context.newAction tan ctx =
      (match callArgsFor r.routeType r.actionId with
       | none => Except.error "routeType error"
       | some args =>
         Except.ok
           { ctx with
             route := some r, params := ps,
             action := some r.actionId, callArgs := args, matched := true,
             trace := ctx.trace ++
               [Event.matchAttempt (removeStick ctx.req.path) ctx.req.method] }) := by
    unfold Context.newAction
    rw [if_neg (by simp [hm]), hmr]
  rw [hred]
  constructor <;> intro hs
  · rw [(callArgsFor_none_iff r.routeType r.actionId).mpr hs]
  · cases hca : callArgsFor r.routeType r.actionId with
    | none =>
      rw [(callArgsFor_none_iff r.routeType r.actionId).mp hca] at hs
      exact Bool.noConfusion hs
    | some args => rfl

/-- Witness for C8: an unsupported kind tag panics, a supported one does not. -/
theorem c8_witness :
    c8Ctx.matched = false ∧
    c8BadTan.matchRoute (removeStick c8Ctx.req.path) c8Ctx.req.method =
      (some c8BadRoute, []) ∧
    supported c8BadRoute.routeType = false ∧
    Context.newAction c8BadTan c8Ctx = Except.error "routeType error" ∧
    supported c8GoodRoute.routeType = true ∧
    isOkE (Context.newAction c8GoodTan c8Ctx) = true := by
  refine ⟨rfl, rfl, rfl, ?_, rfl, ?_⟩
  · exact (c8_unsupported_kind_panics c8BadTan c8Ctx c8BadRoute [] rfl rfl).1 rfl
  · exact (c8_unsupported_kind_panics c8GoodTan c8Ctx c8GoodRoute [] rfl rfl).2 rfl

/-- C2: within one request the stage only moves from 0 to 1 and never
backward; the trace delta of a chain run started in stage 0 records exactly
one stage transition (the point where execute resets idx to 0) precisely when
the final stage is 1, every recorded transition carries an idx value at or
past the global handler count (the transition fires only once idx has reached
the end of the global list), and no route-local (stage 1) handler run occurs
before the transition: route-local middleware runs only after the global
stage is exhausted. -/
theorem c2_stage_forward_and_route_local_after_global (f : Nat) (tan : Tango)
    (ctx ctx' : Context) (h : invoke f tan ctx = Outcome.ok ctx')
    (h0 : ctx.stage = 0) :
    ctx.stage ≤ ctx'.stage ∧ (ctx'.stage = 0 ∨ ctx'.stage = 1) ∧
    ∃ d, ctx'.trace = ctx.trace ++ d ∧
      transCount d = (if ctx'.stage = 1 then 1 else 0) ∧
      transGE tan.handlers.length d = true ∧
      noH1BeforeTrans d = true := by
  obtain ⟨hs, d, ht, hc, hg, hn⟩ :=
    stepCall_stepInv f tan Call.cinvoke ctx ctx' h (fun hc => Call.noConfusion hc)
  have hcount : (if ctx.stage = 0 ∧ ctx'.stage = 1 then 1 else 0) =
      (if ctx'.stage = 1 then (1 : Nat) else 0) := by
    by_cases h1 : ctx'.stage = 1
    · rw [if_pos ⟨h0, h1⟩, if_pos h1]
    · rw [if_neg (fun hx => h1 hx.2), if_neg h1]
  refine ⟨?_, ?_, d, ht, by rw [hc, hcount], hg, hn h0⟩
  · rcases hs with h' | ⟨_, h'⟩ <;> omega
  · rcases hs with h' | ⟨_, h'⟩ <;> omega

/-- Witness for C2: concrete run with one global link, a matched route with
one local link, and a context action. -/
theorem c2_witness :
    invoke 20 c2Tan c2Ctx = Outcome.ok c2Out ∧
    c2Ctx.stage = 0 ∧
    (c2Ctx.stage ≤ c2Out.stage ∧ (c2Out.stage = 0 ∨ c2Out.stage = 1) ∧
      ∃ d, c2Out.trace = c2Ctx.trace ++ d ∧
        transCount d = (if c2Out.stage = 1 then 1 else 0) ∧
        transGE c2Tan.handlers.length d = true ∧
        noH1BeforeTrans d = true) :=
  ⟨rfl, rfl, c2_stage_forward_and_route_local_after_global 20 c2Tan c2Ctx c2Out rfl rfl⟩
